import Mathlib

/-!
Verification of the interrupt-driven stopwatch firmware: a shallow embedding
of the event-capture pipeline (pulse-width filtering, per-sensor rearm),
the bounded ring-buffer event queue, the debounced button input, the
multi-click decoder and the stopwatch state machine, together with proofs
of the specified properties.  All 32-bit counter arithmetic is modelled on
Nat with explicit reduction modulo 2^32.
-/

/-- Size of the uint32 value space; `micros()`/`millis()` wrap at this. -/
def u32size : Nat := 4294967296

/-- Wraparound-safe unsigned difference, as computed by `usDiff` in the
source (uint32 subtraction `a - b`). -/
def usDiff (a b : Nat) : Nat := (a % u32size + (u32size - b % u32size)) % u32size

/-- kMinActivePulseUs: minimum accepted active pulse width (µs). -/
def kMinActivePulseUs : Nat := 200

/-- kSensorRearmUs: per-sensor rearm interval (µs). -/
def kSensorRearmUs : Nat := 25000

/-- kSensorActiveLow: active pulse is LOW. -/
def kSensorActiveLow : Bool := true

/-- kEventBufSize: capacity of the event ring buffer. -/
def kEventBufSize : Nat := 16

/-- kMaxLaps: capacity of the lap table. -/
def kMaxLaps : Nat := 20

/-- kDebounceButtonMs: button debounce window (ms). -/
def kDebounceButtonMs : Nat := 25

/-- kLongPressMs: hold duration that triggers reset (ms). -/
def kLongPressMs : Nat := 1200

/-- kMultiClickGapMs: window to accumulate clicks (ms). -/
def kMultiClickGapMs : Nat := 350

/-- kLcdUpdateIntervalMs: display refresh interval (ms). -/
def kLcdUpdateIntervalMs : Nat := 120

/-- kFinalPopupCycleMs: FINISHED-mode popup cycle duration (ms). -/
def kFinalPopupCycleMs : Nat := 1400

/-- kLapSavedPopupMs: lap-saved popup duration (ms). -/
def kLapSavedPopupMs : Nat := 900

/-- A validated sensor event: sensor id and the fall timestamp (µs). -/
structure SensorEvent where
  sensor_id : Nat
  t_us : Nat
deriving DecidableEq

/-- The event ring buffer: storage plus head (ISR write index) and tail
(main-loop read index). -/
structure EventQueue where
  buf : Nat → SensorEvent
  head : Nat
  tail : Nat

/-- pushEventIsr: enqueue at head unless advancing head would meet tail,
in which case the event is silently dropped. -/
def pushEventIsr (e : SensorEvent) (q : EventQueue) : EventQueue :=
  let next := (q.head + 1) % kEventBufSize
  if next = q.tail then q
  else
    { buf := fun i => if i = q.head then e else q.buf i
      head := next
      tail := q.tail }

/-- popEvent: dequeue from tail; returns none exactly when tail = head. -/
def popEvent (q : EventQueue) : Option SensorEvent × EventQueue :=
  if q.tail = q.head then (none, q)
  else (some (q.buf q.tail), { q with tail := (q.tail + 1) % kEventBufSize })

/-- Number of stored events (head and tail both below the buffer size). -/
def qSize (q : EventQueue) : Nat := (q.head + kEventBufSize - q.tail) % kEventBufSize

/-- Abstract FIFO content of the ring buffer, oldest first. -/
def qToList (q : EventQueue) : List SensorEvent :=
  (List.range (qSize q)).map (fun k => q.buf ((q.tail + k) % kEventBufSize))

/-- The indices of a live queue stay below the buffer size. -/
def QueueWf (q : EventQueue) : Prop := q.head < kEventBufSize ∧ q.tail < kEventBufSize

/-- The initial (boot / reset) queue. -/
def queueInit : EventQueue :=
  { buf := fun _ => { sensor_id := 0, t_us := 0 }, head := 0, tail := 0 }

/-- Per-sensor interrupt capture state together with the shared queue. -/
structure CaptureState where
  fallUs : Fin 4 → Nat
  sawFall : Fin 4 → Bool
  lastAcceptedUs : Fin 4 → Nat
  queue : EventQueue

/-- handleSensorEdgeIsr: record falls; on a matching rise validate the
pulse width and the per-sensor rearm window, then accept and enqueue. -/
def handleSensorEdgeIsr (sensorId : Fin 4) (pinIsHigh : Bool) (nowUs : Nat)
    (s : CaptureState) : CaptureState :=
  if !kSensorActiveLow then s
  else if !pinIsHigh then
    { s with
      fallUs := fun j => if j = sensorId then nowUs % u32size else s.fallUs j
      sawFall := fun j => if j = sensorId then true else s.sawFall j }
  else if !(s.sawFall sensorId) then s
  else
    let fall := s.fallUs sensorId
    let s1 := { s with sawFall := fun j => if j = sensorId then false else s.sawFall j }
    if usDiff nowUs fall < kMinActivePulseUs then s1
    else if usDiff fall (s.lastAcceptedUs sensorId) < kSensorRearmUs then s1
    else
      { s1 with
        lastAcceptedUs := fun j => if j = sensorId then fall else s1.lastAcceptedUs j
        queue := pushEventIsr { sensor_id := sensorId.val, t_us := fall } s1.queue }

/-- The acceptance decision of handleSensorEdgeIsr: some fall timestamp
when the edge completes an accepted pulse, none otherwise. -/
def acceptsEdge (sensorId : Fin 4) (pinIsHigh : Bool) (nowUs : Nat)
    (s : CaptureState) : Option Nat :=
  if !kSensorActiveLow then none
  else if !pinIsHigh then none
  else if !(s.sawFall sensorId) then none
  else if usDiff nowUs (s.fallUs sensorId) < kMinActivePulseUs then none
  else if usDiff (s.fallUs sensorId) (s.lastAcceptedUs sensorId) < kSensorRearmUs then none
  else some (s.fallUs sensorId)

/-- Process a list of sensor edges (sensor, level-after-edge, time). -/
def runEdges (s : CaptureState) : List (Fin 4 × Bool × Nat) → CaptureState
  | [] => s
  | (j, hi, t) :: r => runEdges (handleSensorEdgeIsr j hi t s) r

/-- Fall timestamps of the events of sensor i accepted along an edge list. -/
def acceptedFalls (i : Fin 4) (s : CaptureState) : List (Fin 4 × Bool × Nat) → List Nat
  | [] => []
  | (j, hi, t) :: r =>
    match acceptsEdge j hi t s with
    | some f =>
      if j = i then f :: acceptedFalls i (handleSensorEdgeIsr j hi t s) r
      else acceptedFalls i (handleSensorEdgeIsr j hi t s) r
    | none => acceptedFalls i (handleSensorEdgeIsr j hi t s) r

/-- Boot / post-reset capture state. -/
def capInit : CaptureState :=
  { fallUs := fun _ => 0, sawFall := fun _ => false
    lastAcceptedUs := fun _ => 0, queue := queueInit }

/-- Run states of the stopwatch. -/
inductive RunState where
  | IDLE
  | RUNNING
  | PAUSED
  | FINISHED
deriving DecidableEq

/-- The stopwatch state machine state (run state, reference times, lap
table and the transient popup bookkeeping). -/
structure Stopwatch where
  state : RunState
  startUs : Nat
  elapsedUs : Nat
  lapUs : Nat → Nat
  lapCount : Nat
  finalLapIndex : Nat
  finalShowDelta : Bool
  nextFinalPopupMs : Nat
  lapSavedPopupActive : Bool
  lapSavedPopupUntilMs : Nat
  lapSavedIndex : Nat

/-- startOrResumeUs: no-op if FINISHED; otherwise shift the start
reference back by the accumulated elapsed time and run. -/
def startOrResumeUs (nowUs : Nat) (s : Stopwatch) : Stopwatch :=
  if s.state = RunState.FINISHED then s
  else { s with startUs := usDiff nowUs s.elapsedUs, state := RunState.RUNNING }

/-- pauseUs: only from RUNNING; freeze the elapsed time. -/
def pauseUs (nowUs : Nat) (s : Stopwatch) : Stopwatch :=
  if s.state ≠ RunState.RUNNING then s
  else { s with elapsedUs := usDiff nowUs s.startUs, state := RunState.PAUSED }

/-- togglePauseResumeByDoubleClick: start/pause/resume cycle. -/
def togglePauseResumeByDoubleClick (nowUs : Nat) (s : Stopwatch) : Stopwatch :=
  match s.state with
  | RunState.IDLE => startOrResumeUs nowUs s
  | RunState.RUNNING => pauseUs nowUs s
  | RunState.PAUSED => startOrResumeUs nowUs s
  | RunState.FINISHED => s

/-- saveLapUs: only while RUNNING and below capacity; append the
accumulated time at the event timestamp and arm the lap-saved popup. -/
def saveLapUs (eventUs nowMs : Nat) (s : Stopwatch) : Stopwatch :=
  if s.state ≠ RunState.RUNNING then s
  else if kMaxLaps ≤ s.lapCount then s
  else
    { s with
      lapUs := fun i => if i = s.lapCount then usDiff eventUs s.startUs else s.lapUs i
      lapSavedIndex := s.lapCount
      lapSavedPopupActive := true
      lapSavedPopupUntilMs := (nowMs + kLapSavedPopupMs) % u32size
      lapCount := s.lapCount + 1 }

/-- finishAndShowLaps: freeze elapsed if RUNNING, refuse a
FINISHED-from-nothing, then enter FINISHED and start the popup cycle. -/
def finishAndShowLaps (nowUs nowMs : Nat) (s : Stopwatch) : Stopwatch :=
  let s1 := if s.state = RunState.RUNNING
            then { s with elapsedUs := usDiff nowUs s.startUs } else s
  if s1.state = RunState.IDLE ∧ s1.lapCount = 0 ∧ s1.elapsedUs = 0 then s1
  else
    { s1 with
      state := RunState.FINISHED
      lapSavedPopupActive := false
      finalLapIndex := 0
      finalShowDelta := false
      nextFinalPopupMs := nowMs }

/-- lapDeltaUs: accumulated time of lap 0, successive difference after. -/
def lapDeltaUs (s : Stopwatch) (idx : Nat) : Nat :=
  if idx = 0 then s.lapUs 0 else usDiff (s.lapUs idx) (s.lapUs (idx - 1))

/-- processClickSequence: dispatch a resolved click count. -/
def processClickSequence (clicks : Nat) (nowUs nowMs : Nat) (s : Stopwatch) : Stopwatch :=
  match clicks with
  | 1 => saveLapUs nowUs nowMs s
  | 2 => togglePauseResumeByDoubleClick nowUs s
  | 3 => finishAndShowLaps nowUs nowMs s
  | _ => s

/-- Stopwatch part of resetAll: everything back to the boot values. -/
def swReset : Stopwatch :=
  { state := RunState.IDLE
    startUs := 0
    elapsedUs := 0
    lapUs := fun _ => 0
    lapCount := 0
    finalLapIndex := 0
    finalShowDelta := false
    nextFinalPopupMs := 0
    lapSavedPopupActive := false
    lapSavedPopupUntilMs := 0
    lapSavedIndex := 0 }

/-- The live elapsed update of loop section C: while RUNNING, elapsed is
derived from the current time. -/
def tickUs (nowUs : Nat) (s : Stopwatch) : Stopwatch :=
  if s.state = RunState.RUNNING then { s with elapsedUs := usDiff nowUs s.startUs } else s

/-- Dispatch of one dequeued event in loop section A: sensor 0 starts or
resumes, sensors 1..3 record laps, each with its own recorded timestamp. -/
def drainEvent (nowMs : Nat) (sw : Stopwatch) (ev : SensorEvent) : Stopwatch :=
  if ev.sensor_id = 0 then startOrResumeUs ev.t_us sw else saveLapUs ev.t_us nowMs sw

/-- Dispatch a drained queue content in FIFO order. -/
def drainEvents (nowMs : Nat) (evs : List SensorEvent) (sw : Stopwatch) : Stopwatch :=
  evs.foldl (drainEvent nowMs) sw

/-- Lap table contents, as the list laps[0..lapCount). -/
def lapList (s : Stopwatch) : List Nat := (List.range s.lapCount).map s.lapUs

/-- Multi-click decoder state (loop section B globals). -/
structure BtnState where
  pressStartMs : Nat
  longPressHandled : Bool
  pendingClickCount : Nat
  clickSequenceDeadlineMs : Nat

/-- Boot / post-reset decoder state. -/
def btnInit : BtnState :=
  { pressStartMs := 0, longPressHandled := false
    pendingClickCount := 0, clickSequenceDeadlineMs := 0 }

/-- One iteration of loop section B, taking the debounced edges as input:
a fall records the press start; a sustained hold fires the long-press
reset once; a rise counts a click and extends the sequence deadline; a
pending released sequence whose deadline has passed is dispatched.  The
third component reports the click count dispatched this iteration. -/
def buttonStep (fell rose pressed : Bool) (nowMs nowUs : Nat)
    (b : BtnState) (sw : Stopwatch) : BtnState × Stopwatch × Option Nat :=
  let b1 := if fell then { b with pressStartMs := nowMs, longPressHandled := false } else b
  let p2 : BtnState × Stopwatch :=
    if pressed ∧ ¬b1.longPressHandled ∧ kLongPressMs ≤ usDiff nowMs b1.pressStartMs then
      ({ pressStartMs := 0, longPressHandled := true
         pendingClickCount := 0, clickSequenceDeadlineMs := 0 }, swReset)
    else (b1, sw)
  let b3 := if rose ∧ ¬p2.1.longPressHandled then
      { p2.1 with
        pendingClickCount := (p2.1.pendingClickCount + 1) % 256
        clickSequenceDeadlineMs := (nowMs + kMultiClickGapMs) % u32size }
    else p2.1
  if 0 < b3.pendingClickCount ∧ ¬pressed ∧ b3.clickSequenceDeadlineMs ≤ nowMs then
    ({ b3 with pendingClickCount := 0, clickSequenceDeadlineMs := 0 },
     processClickSequence b3.pendingClickCount nowUs nowMs p2.2,
     some b3.pendingClickCount)
  else (b3, p2.2, none)

/-- Iterate buttonStep over a trace of (fell, rose, pressed, nowMs, nowUs)
loop iterations, collecting the dispatched click counts. -/
def buttonRun (b : BtnState) (sw : Stopwatch) :
    List (Bool × Bool × Bool × Nat × Nat) → BtnState × Stopwatch × List Nat
  | [] => (b, sw, [])
  | (f, r, p, tMs, tUs) :: rest =>
    let st := buttonStep f r p tMs tUs b sw
    let cont := buttonRun st.1 st.2.1 rest
    (cont.1, cont.2.1,
      (match st.2.2 with | some c => [c] | none => []) ++ cont.2.2)

/-- The whole mutable state touched by resetAll. -/
structure System where
  sw : Stopwatch
  btn : BtnState
  cap : CaptureState
  prevPIND : Nat
  prevPINB : Nat

/-- resetAll: back to IDLE, clear the stopwatch, the decoder state, the
event queue indices and every per-sensor capture state; the port shadows
are re-seeded from the current port reads. -/
def resetAll (pind pinb : Nat) (sys : System) : System :=
  { sw := swReset
    btn := btnInit
    cap :=
      { fallUs := fun _ => 0
        sawFall := fun _ => false
        lastAcceptedUs := fun _ => 0
        queue := { buf := sys.cap.queue.buf, head := 0, tail := 0 } }
    prevPIND := pind
    prevPINB := pinb }

/-- Debounced polled input state (the pin read is abstracted into the
raw argument of update). -/
structure DebouncedInput where
  debounceMs : Nat
  stableState : Bool
  lastRawState : Bool
  lastChangeMs : Nat
  fellEvent : Bool
  roseEvent : Bool

/-- DebouncedInput.update: a differing raw reading restarts the
stabilization window; a reading held at least debounceMs that differs
from the stable level commits it and raises the matching edge flag. -/
def DebouncedInput.update (d : DebouncedInput) (raw : Bool) (nowMs : Nat) : DebouncedInput :=
  let d1 := if raw ≠ d.lastRawState
            then { d with lastRawState := raw, lastChangeMs := nowMs } else d
  if d1.debounceMs ≤ usDiff nowMs d1.lastChangeMs ∧ d1.stableState ≠ raw then
    { d1 with
      stableState := raw
      fellEvent := if d1.stableState = true ∧ raw = false then true else d1.fellEvent
      roseEvent := if d1.stableState = false ∧ raw = true then true else d1.roseEvent }
  else d1

/-- Times of a poll sequence. -/
def pollTimes (polls : List (Nat × Bool)) : List Nat := polls.map Prod.fst

/-- Fold update over a poll sequence of (time, raw level). -/
def pollRun (d : DebouncedInput) : List (Nat × Bool) → DebouncedInput
  | [] => d
  | (t, raw) :: r => pollRun (d.update raw t) r

/-- Number of committed stable-level transitions along a poll sequence. -/
def commitCount (d : DebouncedInput) : List (Nat × Bool) → Nat
  | [] => 0
  | (t, raw) :: r =>
    (if (d.update raw t).stableState ≠ d.stableState then 1 else 0)
      + commitCount (d.update raw t) r

/-- Poll times at which the raw level differs from the previous reading. -/
def changeTimes (d : DebouncedInput) : List (Nat × Bool) → List Nat
  | [] => []
  | (t, raw) :: r =>
    if raw ≠ d.lastRawState then t :: changeTimes (d.update raw t) r
    else changeTimes (d.update raw t) r

/-- All successive pairs of a time list lie closer than the window. -/
def gapChain (window : Nat) (l : List Nat) : Prop :=
  List.Chain' (fun a b => usDiff b a < window) l

/-- Deadline stored on a button release (loop line 662). -/
def clickDeadlineMs (nowMs : Nat) : Nat := (nowMs + kMultiClickGapMs) % u32size

/-- Expiry test of the click window as coded (loop line 668): a direct
comparison of the counter against the stored deadline. -/
def clickWindowExpired (nowMs deadlineMs : Nat) : Bool := decide (deadlineMs ≤ nowMs)

/-- Deadline stored when a lap-saved popup is armed (saveLapUs). -/
def lapPopupDeadlineMs (nowMs : Nat) : Nat := (nowMs + kLapSavedPopupMs) % u32size

/-- Expiry test of the lap-saved popup as coded (loop line 716). -/
def lapPopupExpired (nowMs untilMs : Nat) : Bool := decide (untilMs ≤ nowMs)

/-- Debounce window test as coded (DebouncedInput.update, line 112):
fixed-width unsigned subtraction against the counter. -/
def debounceWindowElapsed (nowMs lastChangeMs db : Nat) : Bool :=
  decide (db ≤ usDiff nowMs lastChangeMs)

/-- Long-press test as coded (loop line 650). -/
def longPressReached (nowMs pressStartMs : Nat) : Bool :=
  decide (kLongPressMs ≤ usDiff nowMs pressStartMs)

/-- Pulse-width acceptance test as coded (handleSensorEdgeIsr). -/
def pulseWideEnough (nowUs fallUs : Nat) : Bool :=
  decide (kMinActivePulseUs ≤ usDiff nowUs fallUs)

/-- Rearm test as coded (handleSensorEdgeIsr). -/
def rearmElapsed (fallUs lastAcceptedUs : Nat) : Bool :=
  decide (kSensorRearmUs ≤ usDiff fallUs lastAcceptedUs)

/-- LCD refresh-rate test as coded (loop line 685). -/
def lcdRefreshDue (nowMs lastLcdUpdateMs : Nat) : Bool :=
  decide (kLcdUpdateIntervalMs ≤ usDiff nowMs lastLcdUpdateMs)

/-- Commands the main loop can apply to the stopwatch, each carrying the
counter value at which it runs. -/
inductive Cmd where
  | start (t : Nat)
  | pause (t : Nat)
  | lap (t : Nat)
  | tick (t : Nat)
  | finish (t : Nat)
  | reset (t : Nat)

/-- The counter value a command runs at. -/
def cmdTime : Cmd → Nat
  | Cmd.start t => t
  | Cmd.pause t => t
  | Cmd.lap t => t
  | Cmd.tick t => t
  | Cmd.finish t => t
  | Cmd.reset t => t

/-- Apply one command to the stopwatch. -/
def applyCmd (s : Stopwatch) : Cmd → Stopwatch
  | Cmd.start t => startOrResumeUs t s
  | Cmd.pause t => pauseUs t s
  | Cmd.lap t => saveLapUs t 0 s
  | Cmd.tick t => tickUs t s
  | Cmd.finish t => finishAndShowLaps t 0 s
  | Cmd.reset _ => swReset

/-- Run a command list. -/
def runCmds (s : Stopwatch) : List Cmd → Stopwatch
  | [] => s
  | c :: r => runCmds (applyCmd s c) r

/-- Command times are non-decreasing from the given lower bound. -/
def timeOrdered : Nat → List Cmd → Bool
  | _, [] => true
  | t, c :: r => decide (t ≤ cmdTime c) && timeOrdered (cmdTime c) r

/-- All command times fit in the 32-bit counter. -/
def timesBelow : List Cmd → Bool
  | [] => true
  | c :: r => decide (cmdTime c < u32size) && timesBelow r

/-- Recognize a start/resume command. -/
def isStartCmd : Cmd → Bool
  | Cmd.start _ => true
  | _ => false

/-- Along the run, start/resume is only issued while not RUNNING. -/
def safeStarts (s : Stopwatch) : List Cmd → Bool
  | [] => true
  | c :: r =>
    (!isStartCmd c || decide (s.state ≠ RunState.RUNNING)) && safeStarts (applyCmd s c) r

/-- Invariant carried through a time-ordered run: the lap table is a
non-decreasing sequence of accumulated times all reached by the current
instant t, with the reference fields inside the counter range. -/
def C6Inv (t : Nat) (s : Stopwatch) : Prop :=
  s.startUs < u32size ∧ s.elapsedUs < u32size ∧
  List.Chain' (· ≤ ·) (lapList s) ∧
  (s.state = RunState.RUNNING →
    s.startUs ≤ t ∧ ∀ l ∈ lapList s, s.startUs + l ≤ t) ∧
  (s.state ≠ RunState.RUNNING →
    s.elapsedUs ≤ t ∧ ∀ l ∈ lapList s, l ≤ s.elapsedUs)

/-- A concrete paused stopwatch with some elapsed time. -/
def pausedSample : Stopwatch :=
  { swReset with state := RunState.PAUSED, elapsedUs := 123456 }

/-- A concrete running stopwatch with a full lap table. -/
def fullLapsSample : Stopwatch :=
  { swReset with state := RunState.RUNNING, lapCount := 20 }

/-- A concrete well-formed queue holding one event. -/
def queueSample : EventQueue :=
  { buf := fun i => { sensor_id := i, t_us := 10 * i }, head := 2, tail := 1 }

/-- Overlapping pulses on sensors 1 and 0: sensor 1 falls first but its
rise (validation) comes after sensor 0's event was already queued, so the
queue holds sensor 0's event (fall 100000) before sensor 1's earlier fall
(99000); sensor 2 adds a later lap. -/
def crossSensorEdges : List (Fin 4 × Bool × Nat) :=
  [(1, false, 99000), (0, false, 100000), (0, true, 100300),
   (1, true, 101000), (2, false, 200000), (2, true, 200300)]

/-- Stopwatch obtained by booting, capturing crossSensorEdges and
draining the queue in loop order. -/
def crossSensorFinal : Stopwatch :=
  drainEvents 0 (qToList (runEdges capInit crossSensorEdges).queue) swReset

/-- A time-ordered command sample: run, two laps, pause, resume, lap. -/
def cmdSample : List Cmd :=
  [Cmd.start 100, Cmd.lap 5100, Cmd.tick 6000, Cmd.lap 7100,
   Cmd.pause 9000, Cmd.start 20000, Cmd.lap 30000, Cmd.finish 40000]

/-- Three short presses inside the multi-click gap, then a quiet wait
longer than the gap: loop iterations as (fell, rose, pressed, ms, µs). -/
def triplePressTrace : List (Bool × Bool × Bool × Nat × Nat) :=
  [(true, false, true, 1000, 0), (false, true, false, 1050, 0),
   (true, false, true, 1100, 0), (false, true, false, 1150, 0),
   (true, false, true, 1200, 0), (false, true, false, 1250, 0),
   (false, false, false, 1400, 0), (false, false, false, 1700, 1700000)]

/-- A running stopwatch as produced by a sensor-0 start at time 0. -/
def runningSample : Stopwatch := startOrResumeUs 0 swReset

/-- A freshly seeded debouncer (stable high, window 25 ms). -/
def debouncerSample : DebouncedInput :=
  { debounceMs := 25, stableState := true, lastRawState := true
    lastChangeMs := 0, fellEvent := false, roseEvent := false }

/-- A bounce storm: three raw changes 5 ms apart, then the level rests. -/
def bounceSample : List (Nat × Bool) :=
  [(5, false), (10, true), (15, false), (50, false), (90, false)]

/-- A decoder state with two pending clicks and an expired deadline. -/
def btnPending : BtnState :=
  { pressStartMs := 0, longPressHandled := false
    pendingClickCount := 2, clickSequenceDeadlineMs := 100 }

theorem usDiff_lt (a b : Nat) : usDiff a b < u32size := by
  simp only [usDiff, u32size]; omega

theorem usDiff_mod_right (a b : Nat) : usDiff a (b % u32size) = usDiff a b := by
  simp only [usDiff, u32size]; omega

theorem usDiff_of_le (a b : Nat) (h : b ≤ a) (ha : a < u32size) : usDiff a b = a - b := by
  simp only [usDiff, u32size] at *; omega

theorem usDiff_shift (t d e : Nat) (he : e < u32size) :
    usDiff (t + d) (usDiff t e) = (d + e) % u32size := by
  simp only [usDiff, u32size] at *; omega

theorem usDiff_wrap (base d : Nat) (hd : d < u32size) :
    usDiff ((base + d) % u32size) (base % u32size) = d := by
  simp only [usDiff, u32size] at *; omega

/-- Claim C1: for every state other than FINISHED, startOrResume(now)
sets the start reference to now minus the accumulated elapsed time and
transitions to RUNNING; starting then immediately pausing at the same
instant yields elapsed 0, and running for d, pausing, resuming and
running for d2 yields total elapsed d + d2. -/
theorem c1_startOrResume_pause (s : Stopwatch) (now t0 t1 d d2 : Nat)
    (hs : s.state ≠ RunState.FINISHED) (hd : d + d2 < u32size) :
    (startOrResumeUs now s).startUs = usDiff now s.elapsedUs ∧
    (startOrResumeUs now s).state = RunState.RUNNING ∧
    (s.elapsedUs = 0 → (pauseUs now (startOrResumeUs now s)).elapsedUs = 0) ∧
    (s.elapsedUs = 0 →
      (pauseUs (t0 + d) (startOrResumeUs t0 s)).elapsedUs = d % u32size ∧
      (pauseUs (t1 + d2) (startOrResumeUs t1
        (pauseUs (t0 + d) (startOrResumeUs t0 s)))).elapsedUs = d + d2) := by
  have hzero : (0 : Nat) < u32size := by norm_num [u32size]
  refine ⟨by simp [startOrResumeUs, hs], by simp [startOrResumeUs, hs], ?_, ?_⟩
  · intro he
    have : usDiff (now + 0) (usDiff now 0) = (0 + 0) % u32size := usDiff_shift now 0 0 hzero
    simpa [startOrResumeUs, pauseUs, hs, he] using this
  · intro he
    have h4 : (pauseUs (t0 + d) (startOrResumeUs t0 s)).elapsedUs = d % u32size := by
      have : usDiff (t0 + d) (usDiff t0 0) = (d + 0) % u32size := usDiff_shift t0 d 0 hzero
      simpa [startOrResumeUs, pauseUs, hs, he] using this
    refine ⟨h4, ?_⟩
    have h5 : usDiff (t1 + d2) (usDiff t1 (d % u32size)) = (d2 + d % u32size) % u32size :=
      usDiff_shift t1 d2 (d % u32size) (Nat.mod_lt _ hzero)
    have h6 : (d2 + d % u32size) % u32size = d + d2 := by
      simp only [u32size] at *; omega
    simp only [pauseUs, startOrResumeUs, hs, he] at *
    simp_all

/-- Witness for C1 at a concrete paused stopwatch and concrete times. -/
theorem c1_witness :
    (startOrResumeUs 700 pausedSample).startUs = usDiff 700 pausedSample.elapsedUs ∧
    (startOrResumeUs 700 pausedSample).state = RunState.RUNNING ∧
    (pausedSample.elapsedUs = 0 →
      (pauseUs 700 (startOrResumeUs 700 pausedSample)).elapsedUs = 0) ∧
    (pausedSample.elapsedUs = 0 →
      (pauseUs (10 + 4) (startOrResumeUs 10 pausedSample)).elapsedUs = 4 % u32size ∧
      (pauseUs (90 + 6) (startOrResumeUs 90
        (pauseUs (10 + 4) (startOrResumeUs 10 pausedSample)))).elapsedUs = 4 + 6) :=
  c1_startOrResume_pause pausedSample 700 10 90 4 6 (by decide) (by norm_num [u32size])

/-- Claim C2: a completed active pulse (fall at t1, matching rise at t2)
whose width is below kMinActivePulseUs leaves the event queue unchanged:
no SensorEvent is ever enqueued for it. -/
theorem c2_narrow_pulse_rejected (s : CaptureState) (i : Fin 4) (t1 t2 : Nat)
    (hw : usDiff t2 t1 < kMinActivePulseUs) :
    (handleSensorEdgeIsr i true t2 (handleSensorEdgeIsr i false t1 s)).queue = s.queue := by
  simp [handleSensorEdgeIsr, kSensorActiveLow, usDiff_mod_right, hw]

/-- Witness for C2: a 100 µs pulse on sensor 0 from the boot state. -/
theorem c2_witness :
    (handleSensorEdgeIsr 0 true 1100 (handleSensorEdgeIsr 0 false 1000 capInit)).queue
      = capInit.queue :=
  c2_narrow_pulse_rejected capInit 0 1000 1100 (by decide)

/-- Claim C5 counterexample: the multi-click window and the lap popup are
checked by direct inequality against the stored deadline; with a rise (or
popup arming) 100 ms before counter wraparound, the deadline wraps and
both checks report expiry only 50 ms later, although far less than the
gap (350 ms) or popup duration (900 ms) has elapsed. -/
theorem c5_counterexample :
    clickWindowExpired 4294967246 (clickDeadlineMs 4294967196) = true ∧
    usDiff 4294967246 4294967196 < kMultiClickGapMs ∧
    lapPopupExpired 4294967246 (lapPopupDeadlineMs 4294967196) = true ∧
    usDiff 4294967246 4294967196 < kLapSavedPopupMs := by decide

/-- Claim C5 amended: the debounce, long-press, pulse-width, rearm and
display-refresh checks are evaluated by fixed-width unsigned subtraction
against the counter and decide exactly by the true elapsed time d, for
every counter base point, hence also across wraparound. -/
theorem c5_subtraction_checks_wrap_safe (base d db : Nat) (hd : d < u32size) :
    (debounceWindowElapsed ((base + d) % u32size) (base % u32size) db = true ↔ db ≤ d) ∧
    (longPressReached ((base + d) % u32size) (base % u32size) = true ↔ kLongPressMs ≤ d) ∧
    (pulseWideEnough ((base + d) % u32size) (base % u32size) = true ↔ kMinActivePulseUs ≤ d) ∧
    (rearmElapsed ((base + d) % u32size) (base % u32size) = true ↔ kSensorRearmUs ≤ d) ∧
    (lcdRefreshDue ((base + d) % u32size) (base % u32size) = true ↔ kLcdUpdateIntervalMs ≤ d) := by
  have hw : usDiff ((base + d) % u32size) (base % u32size) = d := usDiff_wrap base d hd
  simp [debounceWindowElapsed, longPressReached, pulseWideEnough,
        rearmElapsed, lcdRefreshDue, hw]

/-- Witness for the amended C5 at a base 296 counts before wraparound. -/
theorem c5_witness :
    (debounceWindowElapsed ((4294967000 + 2000) % u32size) (4294967000 % u32size) 25 = true
      ↔ 25 ≤ 2000) ∧
    (longPressReached ((4294967000 + 2000) % u32size) (4294967000 % u32size) = true
      ↔ kLongPressMs ≤ 2000) ∧
    (pulseWideEnough ((4294967000 + 2000) % u32size) (4294967000 % u32size) = true
      ↔ kMinActivePulseUs ≤ 2000) ∧
    (rearmElapsed ((4294967000 + 2000) % u32size) (4294967000 % u32size) = true
      ↔ kSensorRearmUs ≤ 2000) ∧
    (lcdRefreshDue ((4294967000 + 2000) % u32size) (4294967000 % u32size) = true
      ↔ kLcdUpdateIntervalMs ≤ 2000) :=
  c5_subtraction_checks_wrap_safe 4294967000 2000 25 (by norm_num [u32size])

/-- Claim C7: saveLapUs is a complete no-op whenever the stopwatch is not
RUNNING or the lap table already holds kMaxLaps entries. -/
theorem c7_saveLap_noop (s : Stopwatch) (e m : Nat)
    (h : s.state ≠ RunState.RUNNING ∨ kMaxLaps ≤ s.lapCount) :
    saveLapUs e m s = s := by
  rcases h with h | h
  · simp [saveLapUs, h]
  · by_cases hs : s.state ≠ RunState.RUNNING
    · simp [saveLapUs, hs]
    · simp [saveLapUs, hs, h]

/-- Witness for C7: a lap while PAUSED and a 21st lap are both no-ops. -/
theorem c7_witness :
    saveLapUs 5 0 pausedSample = pausedSample ∧
    saveLapUs 5 0 fullLapsSample = fullLapsSample :=
  ⟨c7_saveLap_noop pausedSample 5 0 (Or.inl (by decide)),
   c7_saveLap_noop fullLapsSample 5 0 (Or.inr (by decide))⟩

theorem pushEventIsr_not_full (q : EventQueue) (e : SensorEvent)
    (hnf : (q.head + 1) % kEventBufSize ≠ q.tail) :
    pushEventIsr e q =
      { buf := fun i => if i = q.head then e else q.buf i
        head := (q.head + 1) % kEventBufSize
        tail := q.tail } := by
  simp only [pushEventIsr]
  rw [if_neg hnf]

theorem popEvent_nonempty (q : EventQueue) (hne : q.tail ≠ q.head) :
    popEvent q =
      (some (q.buf q.tail), { q with tail := (q.tail + 1) % kEventBufSize }) := by
  simp only [popEvent]
  rw [if_neg hne]

theorem qToList_push (q : EventQueue) (e : SensorEvent) (hq : QueueWf q)
    (hnf : (q.head + 1) % kEventBufSize ≠ q.tail) :
    qToList (pushEventIsr e q) = qToList q ++ [e] := by
  obtain ⟨hh, ht⟩ := hq
  rw [pushEventIsr_not_full q e hnf]
  have hsz : qSize { buf := fun i => if i = q.head then e else q.buf i
                     head := (q.head + 1) % kEventBufSize
                     tail := q.tail } = qSize q + 1 := by
    simp only [qSize, kEventBufSize] at *
    omega
  rw [qToList, hsz, List.range_succ, List.map_append]
  simp only [qToList]
  congr 1
  · rw [List.map_eq_map_iff]
    intro k hk
    have hklt : k < qSize q := List.mem_range.mp hk
    have hne : (q.tail + k) % kEventBufSize ≠ q.head := by
      simp only [qSize, kEventBufSize] at *
      omega
    simp [hne]
  · have heq : (q.tail + qSize q) % kEventBufSize = q.head := by
      simp only [qSize, kEventBufSize] at *
      omega
    simp [heq]

theorem qToList_pop (q : EventQueue) (hq : QueueWf q) (hne : q.tail ≠ q.head) :
    qToList q = q.buf q.tail :: qToList (popEvent q).2 := by
  obtain ⟨hh, ht⟩ := hq
  rw [popEvent_nonempty q hne]
  have hm : qSize q = qSize { q with tail := (q.tail + 1) % kEventBufSize } + 1 := by
    simp only [qSize, kEventBufSize] at *
    omega
  rw [qToList, hm, List.range_succ_eq_map, List.map_cons, List.map_map]
  congr 1
  · have h0 : (q.tail + 0) % kEventBufSize = q.tail := by
      simp only [kEventBufSize] at *
      omega
    rw [h0]
  · simp only [qToList]
    rw [List.map_eq_map_iff]
    intro k hk
    have hklt : k < qSize { q with tail := (q.tail + 1) % kEventBufSize } :=
      List.mem_range.mp hk
    have harg : (q.tail + Nat.succ k) % kEventBufSize
        = ((q.tail + 1) % kEventBufSize + k) % kEventBufSize := by
      simp only [kEventBufSize] at *
      omega
    simp only [Function.comp_apply, harg]

/-- Claim C4: head = tail exactly when the queue is empty; a push onto a
full queue changes nothing (events are dropped, never overwritten); a pop
returns nothing exactly when head = tail, and otherwise removes exactly
the oldest stored event, so each stored event is popped at most once in
FIFO order. -/
theorem c4_queue_fifo (q : EventQueue) (e : SensorEvent) (hq : QueueWf q) :
    ((popEvent q).1 = none ↔ q.head = q.tail) ∧
    (qToList q = [] ↔ q.head = q.tail) ∧
    ((q.head + 1) % kEventBufSize = q.tail → pushEventIsr e q = q) ∧
    ((q.head + 1) % kEventBufSize ≠ q.tail →
      qToList (pushEventIsr e q) = qToList q ++ [e] ∧ QueueWf (pushEventIsr e q)) ∧
    (q.head ≠ q.tail →
      (popEvent q).1 = some (q.buf q.tail) ∧
      qToList q = q.buf q.tail :: qToList (popEvent q).2 ∧
      QueueWf (popEvent q).2) := by
  obtain ⟨hh, ht⟩ := hq
  refine ⟨?_, ?_, ?_, ?_, ?_⟩
  · by_cases h : q.tail = q.head
    · simp [popEvent, h]
    · simp [popEvent, h]
      exact fun hc => absurd hc.symm h
  · constructor
    · intro h
      simp only [qToList, List.map_eq_nil_iff, List.range_eq_nil, qSize,
        kEventBufSize] at *
      omega
    · intro h
      simp only [qToList, List.map_eq_nil_iff, List.range_eq_nil, qSize,
        kEventBufSize] at *
      omega
  · intro h
    simp only [pushEventIsr]
    rw [if_pos h]
  · intro h
    refine ⟨qToList_push q e ⟨hh, ht⟩ h, ?_⟩
    rw [pushEventIsr_not_full q e h]
    exact ⟨by simp only [kEventBufSize] at *; omega, ht⟩
  · intro h
    have hne : q.tail ≠ q.head := fun hc => absurd hc.symm h
    refine ⟨by rw [popEvent_nonempty q hne], qToList_pop q ⟨hh, ht⟩ hne, ?_⟩
    rw [popEvent_nonempty q hne]
    exact ⟨hh, by simp only [kEventBufSize] at *; omega⟩

/-- Witness for C4 at a concrete one-element queue and a fresh event. -/
theorem c4_witness :
    ((popEvent queueSample).1 = none ↔ queueSample.head = queueSample.tail) ∧
    (qToList queueSample = [] ↔ queueSample.head = queueSample.tail) ∧
    ((queueSample.head + 1) % kEventBufSize = queueSample.tail →
      pushEventIsr { sensor_id := 3, t_us := 42 } queueSample = queueSample) ∧
    ((queueSample.head + 1) % kEventBufSize ≠ queueSample.tail →
      qToList (pushEventIsr { sensor_id := 3, t_us := 42 } queueSample)
        = qToList queueSample ++ [{ sensor_id := 3, t_us := 42 }] ∧
      QueueWf (pushEventIsr { sensor_id := 3, t_us := 42 } queueSample)) ∧
    (queueSample.head ≠ queueSample.tail →
      (popEvent queueSample).1 = some (queueSample.buf queueSample.tail) ∧
      qToList queueSample
        = queueSample.buf queueSample.tail :: qToList (popEvent queueSample).2 ∧
      QueueWf (popEvent queueSample).2) :=
  c4_queue_fifo queueSample { sensor_id := 3, t_us := 42 } ⟨by decide, by decide⟩

theorem acceptsEdge_spec (j : Fin 4) (hi : Bool) (t : Nat) (s : CaptureState) (f : Nat)
    (h : acceptsEdge j hi t s = some f) :
    f = s.fallUs j ∧ kSensorRearmUs ≤ usDiff f (s.lastAcceptedUs j) := by
  simp only [acceptsEdge, kSensorActiveLow, Bool.not_true, Bool.false_eq_true,
    if_false] at h
  split_ifs at h <;> simp_all [Nat.not_lt]

theorem handle_lastAccepted (j : Fin 4) (hi : Bool) (t : Nat) (s : CaptureState) (i : Fin 4) :
    (handleSensorEdgeIsr j hi t s).lastAcceptedUs i =
      match acceptsEdge j hi t s with
      | some f => if i = j then f else s.lastAcceptedUs i
      | none => s.lastAcceptedUs i := by
  cases hi with
  | false => simp [handleSensorEdgeIsr, acceptsEdge, kSensorActiveLow]
  | true =>
    by_cases hsf : s.sawFall j
    · by_cases hw : usDiff t (s.fallUs j) < kMinActivePulseUs
      · simp [handleSensorEdgeIsr, acceptsEdge, kSensorActiveLow, hsf, hw]
      · by_cases hr : usDiff (s.fallUs j) (s.lastAcceptedUs j) < kSensorRearmUs
        · simp [handleSensorEdgeIsr, acceptsEdge, kSensorActiveLow, hsf, hw, hr]
        · simp [handleSensorEdgeIsr, acceptsEdge, kSensorActiveLow, hsf, hw, hr]
    · simp [handleSensorEdgeIsr, acceptsEdge, kSensorActiveLow, hsf]

theorem acceptedFalls_chain (edges : List (Fin 4 × Bool × Nat)) :
    ∀ (s : CaptureState) (i : Fin 4),
      List.Chain' (fun a b => kSensorRearmUs ≤ usDiff b a)
        (s.lastAcceptedUs i :: acceptedFalls i s edges) := by
  induction edges with
  | nil =>
    intro s i
    simp [acceptedFalls]
  | cons e r ih =>
    intro s i
    obtain ⟨j, hi, t⟩ := e
    have hch := ih (handleSensorEdgeIsr j hi t s) i
    rcases hacc : acceptsEdge j hi t s with _ | f
    · have hla : (handleSensorEdgeIsr j hi t s).lastAcceptedUs i = s.lastAcceptedUs i := by
        rw [handle_lastAccepted, hacc]
      rw [hla] at hch
      simpa [acceptedFalls, hacc] using hch
    · by_cases hji : j = i
      · subst hji
        have hspec := acceptsEdge_spec j hi t s f hacc
        have hla : (handleSensorEdgeIsr j hi t s).lastAcceptedUs j = f := by
          rw [handle_lastAccepted, hacc]
          simp
        rw [hla] at hch
        simp only [acceptedFalls, hacc, eq_self_iff_true, if_true]
        exact List.chain'_cons.mpr ⟨hspec.2, hch⟩
      · have hij : i ≠ j := fun h => hji h.symm
        have hla : (handleSensorEdgeIsr j hi t s).lastAcceptedUs i = s.lastAcceptedUs i := by
          rw [handle_lastAccepted, hacc]
          simp [hij]
        rw [hla] at hch
        simpa [acceptedFalls, hacc, hji] using hch

/-- Claim C3: along any edge sequence from the boot state, any two
consecutively accepted events of the same sensor have fall timestamps at
least kSensorRearmUs apart, the window being measured between the fall
timestamps (the new pulse's fall against the last accepted fall), not the
rise/validation times. -/
theorem c3_rearm_spacing (edges : List (Fin 4 × Bool × Nat)) (i : Fin 4) :
    List.Chain' (fun a b => kSensorRearmUs ≤ usDiff b a) (acceptedFalls i capInit edges) :=
  (acceptedFalls_chain edges capInit i).tail

/-- Claim C10: resetAll empties the event queue (head = tail, so its
abstract content is empty and the next pop returns nothing), clears every
per-sensor capture state, and therefore no event captured or accepted
before the reset can ever be dispatched to the stopwatch. -/
theorem c10_resetAll_clears_capture (pind pinb : Nat) (sys : System) :
    (resetAll pind pinb sys).cap.queue.head = (resetAll pind pinb sys).cap.queue.tail ∧
    qToList (resetAll pind pinb sys).cap.queue = [] ∧
    (popEvent (resetAll pind pinb sys).cap.queue).1 = none ∧
    (∀ i : Fin 4,
      (resetAll pind pinb sys).cap.sawFall i = false ∧
      (resetAll pind pinb sys).cap.fallUs i = 0 ∧
      (resetAll pind pinb sys).cap.lastAcceptedUs i = 0) ∧
    drainEvents 0 (qToList (resetAll pind pinb sys).cap.queue) (resetAll pind pinb sys).sw
      = (resetAll pind pinb sys).sw := by
  have hempty : qToList (resetAll pind pinb sys).cap.queue = [] := by
    simp [resetAll, qToList, qSize]
  refine ⟨rfl, hempty, ?_, fun i => ⟨rfl, rfl, rfl⟩, ?_⟩
  · simp [resetAll, popEvent]
  · rw [hempty]
    rfl

/-- Claim C6 counterexample: captured through the interrupt pipeline,
overlapping pulses put sensor 0's start event (fall 100000) ahead of
sensor 1's earlier fall (99000) in the queue; draining in loop order
yields the lap table [4294966296, 100000], which is decreasing. -/
theorem c6_counterexample :
    lapList crossSensorFinal = [4294966296, 100000] ∧
    ¬ List.Chain' (· ≤ ·) (lapList crossSensorFinal) := by
  have h : lapList crossSensorFinal = [4294966296, 100000] := by decide
  refine ⟨h, ?_⟩
  rw [h]
  intro hc
  have := (List.chain'_cons.mp hc).1
  omega

/-- Claim C9: once pendingClickCount > 0, the input is released and the
deadline has been reached, a quiet loop iteration performs exactly one
dispatch by count (1 records a lap at now, 2 toggles start/pause/resume,
3 finishes, anything else does nothing) and clears the count and the
deadline; the three-short-presses scenario dispatches finish exactly
once, not three single-click actions. -/
theorem c9_click_dispatch (b : BtnState) (sw : Stopwatch) (nowMs nowUs u m : Nat)
    (s : Stopwatch)
    (h1 : 0 < b.pendingClickCount) (h2 : b.clickSequenceDeadlineMs ≤ nowMs) :
    buttonStep false false false nowMs nowUs b sw
      = ({ b with pendingClickCount := 0, clickSequenceDeadlineMs := 0 },
         processClickSequence b.pendingClickCount nowUs nowMs sw,
         some b.pendingClickCount) ∧
    processClickSequence 1 u m s = saveLapUs u m s ∧
    processClickSequence 2 u m s = togglePauseResumeByDoubleClick u s ∧
    processClickSequence 3 u m s = finishAndShowLaps u m s ∧
    processClickSequence 0 u m s = s ∧
    (∀ c, 4 ≤ c → processClickSequence c u m s = s) ∧
    (buttonRun btnInit runningSample triplePressTrace).2.2 = [3] ∧
    (buttonRun btnInit runningSample triplePressTrace).2.1.state = RunState.FINISHED := by
  refine ⟨?_, rfl, rfl, rfl, rfl, ?_, by decide, by decide⟩
  · simp [buttonStep, h1, h2]
  · intro c hc
    rcases c with _ | _ | _ | _ | c
    · omega
    · omega
    · omega
    · omega
    · simp [processClickSequence]

theorem lapList_saveLap (s : Stopwatch) (e m : Nat) (hs : s.state = RunState.RUNNING)
    (hc : s.lapCount < kMaxLaps) :
    lapList (saveLapUs e m s) = lapList s ++ [usDiff e s.startUs] := by
  rw [saveLapUs, if_neg (by simp [hs]), if_neg (Nat.not_le.mpr hc)]
  show (List.range (s.lapCount + 1)).map
      (fun i => if i = s.lapCount then usDiff e s.startUs else s.lapUs i)
    = lapList s ++ [usDiff e s.startUs]
  rw [List.range_succ, List.map_append]
  congr 1
  · rw [lapList, List.map_eq_map_iff]
    intro i hi
    have : i < s.lapCount := List.mem_range.mp hi
    simp [Nat.ne_of_lt this]
  · simp

theorem C6Inv_mono (t u : Nat) (s : Stopwatch) (h : C6Inv t s) (htu : t ≤ u) :
    C6Inv u s := by
  obtain ⟨h1, h2, h3, h4, h5⟩ := h
  refine ⟨h1, h2, h3, ?_, ?_⟩
  · intro hr
    obtain ⟨ha, hb⟩ := h4 hr
    exact ⟨le_trans ha htu, fun l hl => le_trans (hb l hl) htu⟩
  · intro hr
    obtain ⟨ha, hb⟩ := h5 hr
    exact ⟨le_trans ha htu, hb⟩

theorem C6Inv_start (t r : Nat) (s : Stopwatch) (h : C6Inv t s) (htr : t ≤ r)
    (hr : r < u32size) (hnr : s.state ≠ RunState.RUNNING) :
    C6Inv r (startOrResumeUs r s) := by
  obtain ⟨h1, h2, h3, h4, h5⟩ := h
  by_cases hf : s.state = RunState.FINISHED
  · rw [startOrResumeUs, if_pos hf]
    exact C6Inv_mono t r s ⟨h1, h2, h3, h4, h5⟩ htr
  · rw [startOrResumeUs, if_neg hf]
    obtain ⟨he, hl⟩ := h5 hnr
    have hel : s.elapsedUs ≤ r := le_trans he htr
    have hstart : usDiff r s.elapsedUs = r - s.elapsedUs := usDiff_of_le r s.elapsedUs hel hr
    refine ⟨?_, h2, h3, ?_, ?_⟩
    · show usDiff r s.elapsedUs < u32size
      exact usDiff_lt r s.elapsedUs
    · intro _
      constructor
      · show usDiff r s.elapsedUs ≤ r
        rw [hstart]
        omega
      · intro l hl2
        have hml : l ≤ s.elapsedUs := hl l hl2
        show usDiff r s.elapsedUs + l ≤ r
        rw [hstart]
        omega
    · intro hcon
      exact absurd rfl hcon

theorem C6Inv_pause (t p : Nat) (s : Stopwatch) (h : C6Inv t s) (htp : t ≤ p)
    (hp : p < u32size) : C6Inv p (pauseUs p s) := by
  obtain ⟨h1, h2, h3, h4, h5⟩ := h
  by_cases hr : s.state = RunState.RUNNING
  · rw [pauseUs, if_neg (by simp [hr])]
    obtain ⟨hsl, hlap⟩ := h4 hr
    have hdiff : usDiff p s.startUs = p - s.startUs :=
      usDiff_of_le p s.startUs (le_trans hsl htp) hp
    refine ⟨h1, usDiff_lt p s.startUs, h3, ?_, ?_⟩
    · intro hcon
      exact absurd hcon (by simp)
    · intro _
      constructor
      · show usDiff p s.startUs ≤ p
        rw [hdiff]
        omega
      · intro l hl
        have := hlap l hl
        show l ≤ usDiff p s.startUs
        rw [hdiff]
        omega
  · rw [pauseUs, if_pos hr]
    exact C6Inv_mono t p s ⟨h1, h2, h3, h4, h5⟩ htp

theorem C6Inv_lap (t e m : Nat) (s : Stopwatch) (h : C6Inv t s) (hte : t ≤ e)
    (he : e < u32size) : C6Inv e (saveLapUs e m s) := by
  obtain ⟨h1, h2, h3, h4, h5⟩ := h
  by_cases hr : s.state = RunState.RUNNING
  · by_cases hc : s.lapCount < kMaxLaps
    · have hll := lapList_saveLap s e m hr hc
      obtain ⟨hsl, hlap⟩ := h4 hr
      have hdiff : usDiff e s.startUs = e - s.startUs :=
        usDiff_of_le e s.startUs (le_trans hsl hte) he
      have hstep : saveLapUs e m s =
          { s with
            lapUs := fun i => if i = s.lapCount then usDiff e s.startUs else s.lapUs i
            lapSavedIndex := s.lapCount
            lapSavedPopupActive := true
            lapSavedPopupUntilMs := (m + kLapSavedPopupMs) % u32size
            lapCount := s.lapCount + 1 } := by
        rw [saveLapUs, if_neg (by simp [hr]), if_neg (Nat.not_le.mpr hc)]
      rw [hstep] at hll ⊢
      refine ⟨h1, h2, ?_, ?_, ?_⟩
      · rw [hll]
        refine h3.append (List.chain'_singleton _) ?_
        intro x hx y hy
        obtain ⟨hne, rfl⟩ := List.mem_getLast?_eq_getLast hx
        have hxm := List.getLast_mem hne
        have := hlap _ hxm
        simp only [List.head?_cons, Option.mem_def, Option.some.injEq] at hy
        subst hy
        rw [hdiff]
        omega
      · intro _
        constructor
        · show s.startUs ≤ e
          omega
        · intro l hl2
          rw [hll] at hl2
          rcases List.mem_append.mp hl2 with hold | hnew
          · have := hlap l hold
            show s.startUs + l ≤ e
            omega
          · simp only [List.mem_singleton] at hnew
            subst hnew
            show s.startUs + usDiff e s.startUs ≤ e
            rw [hdiff]
            omega
      · intro hcon
        exact absurd hr hcon
    · rw [saveLapUs, if_neg (by simp [hr]), if_pos (Nat.not_lt.mp hc)]
      exact C6Inv_mono t e s ⟨h1, h2, h3, h4, h5⟩ hte
  · rw [saveLapUs, if_pos hr]
    exact C6Inv_mono t e s ⟨h1, h2, h3, h4, h5⟩ hte

theorem C6Inv_tick (t u : Nat) (s : Stopwatch) (h : C6Inv t s) (htu : t ≤ u)
    (hu : u < u32size) : C6Inv u (tickUs u s) := by
  obtain ⟨h1, h2, h3, h4, h5⟩ := h
  by_cases hr : s.state = RunState.RUNNING
  · rw [tickUs, if_pos hr]
    obtain ⟨hsl, hlap⟩ := h4 hr
    refine ⟨h1, usDiff_lt u s.startUs, h3, ?_, ?_⟩
    · intro _
      exact ⟨le_trans hsl htu, fun l hl => le_trans (hlap l hl) htu⟩
    · intro hcon
      exact absurd hr hcon
  · rw [tickUs, if_neg hr]
    exact C6Inv_mono t u s ⟨h1, h2, h3, h4, h5⟩ htu

theorem C6Inv_finish (t f m : Nat) (s : Stopwatch) (h : C6Inv t s) (htf : t ≤ f)
    (hf : f < u32size) : C6Inv f (finishAndShowLaps f m s) := by
  obtain ⟨h1, h2, h3, h4, h5⟩ := h
  by_cases hr : s.state = RunState.RUNNING
  · obtain ⟨hsl, hlap⟩ := h4 hr
    have hdiff : usDiff f s.startUs = f - s.startUs :=
      usDiff_of_le f s.startUs (le_trans hsl htf) hf
    have hstep : finishAndShowLaps f m s =
        { s with
          elapsedUs := usDiff f s.startUs
          state := RunState.FINISHED
          lapSavedPopupActive := false
          finalLapIndex := 0
          finalShowDelta := false
          nextFinalPopupMs := m } := by
      simp [finishAndShowLaps, hr]
    rw [hstep]
    refine ⟨h1, usDiff_lt f s.startUs, h3, ?_, ?_⟩
    · intro hcon
      exact absurd hcon (by simp)
    · intro _
      constructor
      · show usDiff f s.startUs ≤ f
        rw [hdiff]
        omega
      · intro l hl
        have := hlap l hl
        show l ≤ usDiff f s.startUs
        rw [hdiff]
        omega
  · obtain ⟨hel, hlap⟩ := h5 hr
    have hstep : finishAndShowLaps f m s =
        if s.state = RunState.IDLE ∧ s.lapCount = 0 ∧ s.elapsedUs = 0 then s
        else
          { s with
            state := RunState.FINISHED
            lapSavedPopupActive := false
            finalLapIndex := 0
            finalShowDelta := false
            nextFinalPopupMs := m } := by
      simp [finishAndShowLaps, hr]
    rw [hstep]
    by_cases hguard : s.state = RunState.IDLE ∧ s.lapCount = 0 ∧ s.elapsedUs = 0
    · rw [if_pos hguard]
      exact C6Inv_mono t f s ⟨h1, h2, h3, h4, h5⟩ htf
    · rw [if_neg hguard]
      refine ⟨h1, h2, h3, ?_, ?_⟩
      · intro hcon
        exact absurd hcon (by simp)
      · intro _
        exact ⟨le_trans hel htf, hlap⟩

theorem C6Inv_reset (t : Nat) : C6Inv t swReset := by
  refine ⟨by norm_num [swReset, u32size], by norm_num [swReset, u32size],
    by simp [lapList, swReset], ?_, ?_⟩
  · intro hcon
    exact absurd hcon (by decide)
  · intro _
    exact ⟨Nat.zero_le t, by simp [lapList, swReset]⟩

theorem c6_run_aux (cmds : List Cmd) : ∀ (s : Stopwatch) (t : Nat),
    C6Inv t s → timeOrdered t cmds = true → timesBelow cmds = true →
    safeStarts s cmds = true → ∃ u, C6Inv u (runCmds s cmds) := by
  induction cmds with
  | nil =>
    intro s t h _ _ _
    exact ⟨t, h⟩
  | cons c r ih =>
    intro s t h hto htb hss
    simp only [timeOrdered, Bool.and_eq_true, decide_eq_true_eq] at hto
    obtain ⟨htc, hto2⟩ := hto
    simp only [timesBelow, Bool.and_eq_true, decide_eq_true_eq] at htb
    obtain ⟨hbc, htb2⟩ := htb
    simp only [safeStarts, Bool.and_eq_true] at hss
    obtain ⟨hsc, hss2⟩ := hss
    have hstep : C6Inv (cmdTime c) (applyCmd s c) := by
      cases c with
      | start u =>
        have hns : s.state ≠ RunState.RUNNING := by
          simp only [isStartCmd, Bool.not_true, Bool.false_or,
            decide_eq_true_eq] at hsc
          exact hsc
        exact C6Inv_start t u s h htc hbc hns
      | pause u => exact C6Inv_pause t u s h htc hbc
      | lap u => exact C6Inv_lap t u 0 s h htc hbc
      | tick u => exact C6Inv_tick t u s h htc hbc
      | finish u => exact C6Inv_finish t u 0 s h htc hbc
      | reset u => exact C6Inv_reset u
    exact ih (applyCmd s c) (cmdTime c) hstep hto2 htb2 hss2

/-- Claim C6 amended: over every time-ordered command sequence from the
boot state (non-decreasing times below 2^32) in which start/resume is
only issued while not RUNNING, the lap table laps[0..lapCount) stays
monotonically non-decreasing across button laps, sensor laps, pause and
resume; as stated the claim fails because queued cross-sensor events are
not globally time-ordered, so a lap event older than the current start
reference wraps (see the counterexample). -/
theorem c6_laps_monotone_amended (cmds : List Cmd)
    (h1 : timeOrdered 0 cmds = true) (h2 : timesBelow cmds = true)
    (h3 : safeStarts swReset cmds = true) :
    List.Chain' (· ≤ ·) (lapList (runCmds swReset cmds)) := by
  obtain ⟨u, hinv⟩ := c6_run_aux cmds swReset 0 (C6Inv_reset 0) h1 h2 h3
  exact hinv.2.2.1

/-- Witness for the amended C6 on a run/lap/pause/resume/lap sample. -/
theorem c6_witness : List.Chain' (· ≤ ·) (lapList (runCmds swReset cmdSample)) :=
  c6_laps_monotone_amended cmdSample (by decide) (by decide) (by decide)

/-- Witness for C9 at a two-click pending decoder and concrete times. -/
theorem c9_witness :
    buttonStep false false false 200 300 btnPending swReset
      = ({ btnPending with pendingClickCount := 0, clickSequenceDeadlineMs := 0 },
         processClickSequence btnPending.pendingClickCount 300 200 swReset,
         some btnPending.pendingClickCount) ∧
    processClickSequence 1 7 8 swReset = saveLapUs 7 8 swReset ∧
    processClickSequence 2 7 8 swReset = togglePauseResumeByDoubleClick 7 swReset ∧
    processClickSequence 3 7 8 swReset = finishAndShowLaps 7 8 swReset ∧
    processClickSequence 0 7 8 swReset = swReset ∧
    (∀ c, 4 ≤ c → processClickSequence c 7 8 swReset = swReset) ∧
    (buttonRun btnInit runningSample triplePressTrace).2.2 = [3] ∧
    (buttonRun btnInit runningSample triplePressTrace).2.1.state = RunState.FINISHED :=
  c9_click_dispatch btnPending swReset 200 300 7 8 swReset (by decide) (by decide)

theorem usDiff_self (t : Nat) : usDiff t t = 0 := by
  simp only [usDiff, u32size]
  omega

theorem pollTimes_cons (t : Nat) (raw : Bool) (r : List (Nat × Bool)) :
    pollTimes ((t, raw) :: r) = t :: pollTimes r := rfl

theorem commitCount_cons (d : DebouncedInput) (t : Nat) (raw : Bool)
    (r : List (Nat × Bool)) :
    commitCount d ((t, raw) :: r)
      = (if (d.update raw t).stableState ≠ d.stableState then 1 else 0)
        + commitCount (d.update raw t) r := rfl

theorem changeTimes_cons (d : DebouncedInput) (t : Nat) (raw : Bool)
    (r : List (Nat × Bool)) :
    changeTimes d ((t, raw) :: r)
      = if raw ≠ d.lastRawState then t :: changeTimes (d.update raw t) r
        else changeTimes (d.update raw t) r := rfl

theorem update_same_raw (d : DebouncedInput) (t : Nat) (raw : Bool)
    (hraw : raw = d.lastRawState)
    (hnc : ¬(d.debounceMs ≤ usDiff t d.lastChangeMs ∧ d.stableState ≠ raw)) :
    d.update raw t = d := by
  subst hraw
  simp only [DebouncedInput.update, ne_eq, not_true_eq_false, if_false]
  rw [if_neg]
  simpa using hnc

theorem update_of_change (d : DebouncedInput) (t : Nat) (raw : Bool)
    (hraw : raw ≠ d.lastRawState) (hdb : 0 < d.debounceMs) :
    d.update raw t = { d with lastRawState := raw, lastChangeMs := t } := by
  have hn : ¬ (d.debounceMs ≤ 0) := by omega
  simp [DebouncedInput.update, hraw, usDiff_self, hn]

theorem update_commit_eq (d : DebouncedInput) (t : Nat) (raw : Bool)
    (hraw : raw = d.lastRawState)
    (hcond : d.debounceMs ≤ usDiff t d.lastChangeMs) (hst : d.stableState ≠ raw) :
    d.update raw t =
      { d with
        stableState := raw
        fellEvent := if d.stableState = true ∧ raw = false then true else d.fellEvent
        roseEvent := if d.stableState = false ∧ raw = true then true else d.roseEvent } := by
  subst hraw
  simp [DebouncedInput.update, hcond, hst]

theorem changeTimes_subset (polls : List (Nat × Bool)) : ∀ (d : DebouncedInput)
    (x : Nat), x ∈ changeTimes d polls → x ∈ pollTimes polls := by
  induction polls with
  | nil =>
    intro d x hx
    simp [changeTimes] at hx
  | cons p r ih =>
    intro d x hx
    obtain ⟨t, raw⟩ := p
    rw [changeTimes_cons] at hx
    rw [pollTimes_cons]
    by_cases hraw : raw ≠ d.lastRawState
    · rw [if_pos hraw] at hx
      rcases List.mem_cons.mp hx with rfl | hx2
      · exact List.mem_cons_self _ _
      · exact List.mem_cons_of_mem _ (ih _ _ hx2)
    · rw [if_neg hraw] at hx
      exact List.mem_cons_of_mem _ (ih _ _ hx)

theorem no_change_no_commit (polls : List (Nat × Bool)) : ∀ (d : DebouncedInput),
    d.stableState = d.lastRawState → changeTimes d polls = [] →
    commitCount d polls = 0 := by
  induction polls with
  | nil =>
    intro d _ _
    rfl
  | cons p r ih =>
    intro d hsl hct
    obtain ⟨t, raw⟩ := p
    rw [changeTimes_cons] at hct
    by_cases hraw : raw = d.lastRawState
    · have hstable : d.stableState = raw := hsl.trans hraw.symm
      have hupd : d.update raw t = d :=
        update_same_raw d t raw hraw (fun hc => hc.2 hstable)
      rw [if_neg (fun hcon => hcon hraw)] at hct
      rw [hupd] at hct
      rw [commitCount_cons, hupd, if_neg (fun hcon => hcon rfl)]
      simpa using ih d hsl hct
    · rw [if_pos hraw] at hct
      exact absurd hct (by simp)

theorem debounce_aux (polls : List (Nat × Bool)) : ∀ (d : DebouncedInput),
    0 < d.debounceMs →
    d.lastChangeMs < u32size →
    (∀ x ∈ pollTimes polls, x < u32size) →
    List.Pairwise (· ≤ ·) (pollTimes polls) →
    (∀ x ∈ pollTimes polls, d.lastChangeMs ≤ x) →
    ((d.stableState = d.lastRawState ∧ gapChain d.debounceMs (changeTimes d polls)) ∨
     (d.stableState ≠ d.lastRawState ∧
       gapChain d.debounceMs (d.lastChangeMs :: changeTimes d polls))) →
    commitCount d polls ≤ 1 := by
  induction polls with
  | nil =>
    intro d _ _ _ _ _ _
    simp [commitCount]
  | cons p r ih =>
    obtain ⟨t, raw⟩ := p
    intro d hdb hlc hb hp hl hdisj
    have ht : t < u32size := hb t (by rw [pollTimes_cons]; exact List.mem_cons_self _ _)
    have hlt : d.lastChangeMs ≤ t := hl t (by rw [pollTimes_cons]; exact List.mem_cons_self _ _)
    have hb2 : ∀ x ∈ pollTimes r, x < u32size := by
      intro x hx
      exact hb x (by rw [pollTimes_cons]; exact List.mem_cons_of_mem _ hx)
    have hl2 : ∀ x ∈ pollTimes r, d.lastChangeMs ≤ x := by
      intro x hx
      exact hl x (by rw [pollTimes_cons]; exact List.mem_cons_of_mem _ hx)
    rw [pollTimes_cons] at hp
    obtain ⟨htr, hp2⟩ := List.pairwise_cons.mp hp
    rcases hdisj with ⟨hsl, hgc⟩ | ⟨hsl, hgc⟩
    · by_cases hraw : raw = d.lastRawState
      · -- in sync, no change observed: nothing happens
        have hstable : d.stableState = raw := hsl.trans hraw.symm
        have hupd : d.update raw t = d :=
          update_same_raw d t raw hraw (fun hc => hc.2 hstable)
        rw [changeTimes_cons, if_neg (fun hcon => hcon hraw), hupd] at hgc
        rw [commitCount_cons, hupd, if_neg (fun hcon => hcon rfl)]
        simpa using ih d hdb hlc hb2 hp2 hl2 (Or.inl ⟨hsl, hgc⟩)
      · -- in sync, change observed: enter the pending phase at time t
        have hupd : d.update raw t = { d with lastRawState := raw, lastChangeMs := t } :=
          update_of_change d t raw hraw hdb
        rw [changeTimes_cons, if_pos hraw, hupd] at hgc
        rw [commitCount_cons, hupd, if_neg (fun hcon => hcon rfl)]
        have hne : ({ d with lastRawState := raw, lastChangeMs := t } :
            DebouncedInput).stableState
            ≠ ({ d with lastRawState := raw, lastChangeMs := t } :
            DebouncedInput).lastRawState := by
          show d.stableState ≠ raw
          intro hc
          exact hraw (hc.symm.trans hsl)
        simpa using ih { d with lastRawState := raw, lastChangeMs := t }
          hdb ht hb2 hp2 htr (Or.inr ⟨hne, hgc⟩)
    · by_cases hraw : raw = d.lastRawState
      · -- pending, level held: the stabilization test runs against the
        -- pending change time
        have hstable_ne : d.stableState ≠ raw := fun hc => hsl (hc.trans hraw)
        by_cases hcommit : d.debounceMs ≤ usDiff t d.lastChangeMs
        · -- the pending level commits: afterwards no change is left, so
          -- no second commit can occur
          have hupd := update_commit_eq d t raw hraw hcommit hstable_ne
          rw [changeTimes_cons, if_neg (fun hcon => hcon hraw), hupd] at hgc
          rw [commitCount_cons, hupd, if_pos (fun hcon => hstable_ne hcon.symm)]
          set du : DebouncedInput :=
            { d with
              stableState := raw
              fellEvent := if d.stableState = true ∧ raw = false then true else d.fellEvent
              roseEvent := if d.stableState = false ∧ raw = true then true else d.roseEvent }
            with hdu
          have hsync : du.stableState = du.lastRawState := hraw
          rcases hcte : changeTimes du r with _ | ⟨c, cs⟩
          · have := no_change_no_commit r du hsync hcte
            omega
          · exfalso
            rw [hcte] at hgc
            have hadj : usDiff c d.lastChangeMs < d.debounceMs :=
              (List.chain'_cons.mp hgc).1
            have hcm : c ∈ pollTimes r :=
              changeTimes_subset r du c (by rw [hcte]; exact List.mem_cons_self _ _)
            have htc : t ≤ c := htr c hcm
            have hcu : c < u32size := hb2 c hcm
            rw [usDiff_of_le c d.lastChangeMs (le_trans hlt htc) hcu] at hadj
            rw [usDiff_of_le t d.lastChangeMs hlt ht] at hcommit
            omega
        · -- window not yet satisfied: nothing happens
          have hupd : d.update raw t = d :=
            update_same_raw d t raw hraw (fun hc => hcommit hc.1)
          rw [changeTimes_cons, if_neg (fun hcon => hcon hraw), hupd] at hgc
          rw [commitCount_cons, hupd, if_neg (fun hcon => hcon rfl)]
          simpa using ih d hdb hlc hb2 hp2 hl2 (Or.inr ⟨hsl, hgc⟩)
      · -- pending, level bounces back to the stable side: pending resolves
        have hsr : d.stableState = raw := by
          revert hsl hraw
          cases d.stableState <;> cases d.lastRawState <;> cases raw <;> simp
        have hupd : d.update raw t = { d with lastRawState := raw, lastChangeMs := t } :=
          update_of_change d t raw hraw hdb
        rw [changeTimes_cons, if_pos hraw, hupd] at hgc
        rw [commitCount_cons, hupd, if_neg (fun hcon => hcon rfl)]
        have hsync : ({ d with lastRawState := raw, lastChangeMs := t } :
            DebouncedInput).stableState
            = ({ d with lastRawState := raw, lastChangeMs := t } :
            DebouncedInput).lastRawState := hsr
        have hgc2 : gapChain d.debounceMs
            (changeTimes { d with lastRawState := raw, lastChangeMs := t } r) :=
          List.Chain'.tail (List.Chain'.tail hgc)
        simpa using ih { d with lastRawState := raw, lastChangeMs := t }
          hdb ht hb2 hp2 htr (Or.inl ⟨hsync, hgc2⟩)

/-- Claim C8: from a seeded debouncer (stable level in sync with the last
raw reading), any poll sequence with non-decreasing times whose observed
raw-level changes are all less than debounceMs apart commits at most one
stable-level transition, however many bounces occur; and a step changes
stableState only when the raw reading equals the previous reading and has
been held for at least debounceMs since the last observed change. -/
theorem c8_debounce_single_transition (d : DebouncedInput) (polls : List (Nat × Bool))
    (h0 : 0 < d.debounceMs) (hsl : d.stableState = d.lastRawState)
    (hc : d.lastChangeMs < u32size)
    (hb : ∀ x ∈ pollTimes polls, x < u32size)
    (hs : List.Pairwise (· ≤ ·) (pollTimes polls))
    (hl : ∀ x ∈ pollTimes polls, d.lastChangeMs ≤ x)
    (hg : gapChain d.debounceMs (changeTimes d polls)) :
    commitCount d polls ≤ 1 ∧
    (∀ (e : DebouncedInput) (raw : Bool) (now : Nat), 0 < e.debounceMs →
      (e.update raw now).stableState ≠ e.stableState →
      raw = e.lastRawState ∧ e.debounceMs ≤ usDiff now e.lastChangeMs) := by
  constructor
  · exact debounce_aux polls d h0 hc hb hs hl (Or.inl ⟨hsl, hg⟩)
  · intro e raw now hdb hchg
    by_cases hraw : raw = e.lastRawState
    · by_cases hcond : e.debounceMs ≤ usDiff now e.lastChangeMs ∧ e.stableState ≠ raw
      · exact ⟨hraw, hcond.1⟩
      · rw [update_same_raw e now raw hraw hcond] at hchg
        exact absurd rfl hchg
    · rw [update_of_change e now raw hraw hdb] at hchg
      exact absurd rfl hchg

/-- Witness for C8 on a three-bounce storm that settles low. -/
theorem c8_witness :
    commitCount debouncerSample bounceSample ≤ 1 ∧
    (∀ (e : DebouncedInput) (raw : Bool) (now : Nat), 0 < e.debounceMs →
      (e.update raw now).stableState ≠ e.stableState →
      raw = e.lastRawState ∧ e.debounceMs ≤ usDiff now e.lastChangeMs) :=
  c8_debounce_single_transition debouncerSample bounceSample (by decide) (by decide)
    (by decide) (by decide) (by decide) (by decide)
    (by
      have hct : changeTimes debouncerSample bounceSample = [5, 10, 15] := by decide
      rw [gapChain, hct]
      refine List.chain'_cons.mpr ⟨by decide, List.chain'_cons.mpr ⟨by decide,
        List.chain'_singleton _⟩⟩)
